import Mathlib

/-!
Verification development for the task-manager query/aggregation engine and
store update path of src/data_handler.py (class DatabaseHandler).

The shallow embedding below translates the Python functions into Lean:

* Python datetime.date values become the structure Date (year, month, day,
  compared lexicographically, exactly as Python compares dates).
  datetime.date.max is dateMax = 9999-12-31.  Arithmetic past year 9999
  (where Python raises OverflowError) is out of scope: nextDay simply rolls
  into year 10000 there.
* datetime.datetime.strptime(s, the format %Y-%m-%d) is parseDate: exactly
  four digits for the year, a dash, one or two digits for the month, a dash,
  one or two digits for the day, nothing left over, and the resulting
  numbers must form a real calendar date (this mirrors CPython's regex for
  that format plus the datetime constructor's range checks; ValueError is
  Option.none here).
* Python str.lower / str.strip / str.split are modelled over ASCII
  characters (the query engine's enum values, tags and dates in this
  repository are ASCII); timestamps (created_at and friends) are abstract
  Nat counters since no claim inspects their internal structure.
* A task dict as the query engine receives it from get_all_tasks is the
  structure Task; an absent key and a key stored as JSON null are both
  Option.none.  A database row is the structure Row.
* Python's sorted(...) is a stable sort; it is rendered as insertion sort on
  the extracted comparison key, which computes the same list (the unique
  output that is both ordered by the key and key-stable).
-/

namespace DataHandler

/-- A calendar date as Python's datetime.date: compared lexicographically by
(year, month, day). -/
structure Date where
  year : Nat
  month : Nat
  day : Nat
deriving DecidableEq, Repr

/-- Python date comparison a < b (lexicographic on year, month, day). -/
def dateLtB (a b : Date) : Bool :=
  decide (a.year < b.year) ||
    (decide (a.year = b.year) &&
      (decide (a.month < b.month) ||
        (decide (a.month = b.month) && decide (a.day < b.day))))

/-- Python date comparison a <= b, which on a total order is the negation of
b < a. -/
def dateLeB (a b : Date) : Bool := !(dateLtB b a)

/-- datetime.date.max, i.e. 9999-12-31. -/
def dateMax : Date := ⟨9999, 12, 31⟩

/-- Number of days in a month, with the Gregorian leap rule, as Python's
calendar underlying datetime.date validity. -/
def daysInMonth (y m : Nat) : Nat :=
  if m = 2 then
    (if y % 4 = 0 && (y % 100 ≠ 0 || y % 400 = 0) then 29 else 28)
  else if m = 4 || m = 6 || m = 9 || m = 11 then 30
  else 31

/-- Validity of a Date under datetime.date's constructor checks. -/
def validDateB (d : Date) : Bool :=
  decide (1 ≤ d.year) && decide (d.year ≤ 9999) &&
    decide (1 ≤ d.month) && decide (d.month ≤ 12) &&
    decide (1 ≤ d.day) && decide (d.day ≤ daysInMonth d.year d.month)

/-- The day after a date (Python date + timedelta(days=1)); rolls over months
and years. -/
def nextDay (d : Date) : Date :=
  if d.day < daysInMonth d.year d.month then ⟨d.year, d.month, d.day + 1⟩
  else if d.month < 12 then ⟨d.year, d.month + 1, 1⟩
  else ⟨d.year + 1, 1, 1⟩

/-- Python date + timedelta(days=3). -/
def addDays3 (d : Date) : Date := nextDay (nextDay (nextDay d))

/-- An order-embedding of valid dates into Nat, used as the sort key standing
for a date (month below 13 and day below 32 make it strictly monotone on
valid dates). -/
def encodeDate (d : Date) : Nat := d.year * 416 + d.month * 32 + d.day

/-- Numeric value of a list of ASCII digit characters. -/
def digitsToNat (cs : List Char) : Nat :=
  cs.foldl (fun n c => n * 10 + (c.toNat - 48)) 0

/-- Range checks of datetime.date's constructor: the parsed numbers must be a
real calendar date (year 1..9999). -/
def mkValidDate (y m d : Nat) : Option Date :=
  if 1 ≤ y ∧ y ≤ 9999 ∧ 1 ≤ m ∧ m ≤ 12 ∧ 1 ≤ d ∧ d ≤ daysInMonth y m then
    some ⟨y, m, d⟩
  else none

/-- datetime.datetime.strptime(s, the format %Y-%m-%d).date(): four year
digits, a dash, one or two month digits, a dash, one or two day digits,
nothing trailing, then the constructor's validity checks.  Option.none is
Python's ValueError. -/
def parseDate (s : String) : Option Date :=
  let cs := s.data
  let ys := cs.takeWhile Char.isDigit
  let r1 := cs.dropWhile Char.isDigit
  if ys.length = 4 then
    match r1 with
    | '-' :: r2 =>
      let ms := r2.takeWhile Char.isDigit
      let r3 := r2.dropWhile Char.isDigit
      if 1 ≤ ms.length ∧ ms.length ≤ 2 then
        match r3 with
        | '-' :: r4 =>
          let ds := r4.takeWhile Char.isDigit
          let r5 := r4.dropWhile Char.isDigit
          if (1 ≤ ds.length ∧ ds.length ≤ 2) ∧ r5 = [] then
            mkValidDate (digitsToNat ys) (digitsToNat ms) (digitsToNat ds)
          else none
        | _ => none
      else none
    | _ => none
  else none

/-- Characters Python's str.strip removes (ASCII whitespace). -/
def pyIsSpace (c : Char) : Bool :=
  c == ' ' || c == '\t' || c == '\n' || c == '\r' || c == '\x0b' || c == '\x0c'

/-- Removal of trailing characters satisfying p (the tail half of
str.strip). -/
def dropTrail (p : Char → Bool) : List Char → List Char
  | [] => []
  | c :: cs =>
    match dropTrail p cs with
    | [] => if p c then [] else [c]
    | d :: ds => c :: d :: ds

/-- Python str.strip() on a character list: leading and trailing whitespace
removed. -/
def pyStripChars (cs : List Char) : List Char :=
  dropTrail pyIsSpace (cs.dropWhile pyIsSpace)

/-- Python str.strip(). -/
def pyStrip (s : String) : String := String.mk (pyStripChars s.data)

/-- Python str.split on a comma: splits at every comma, keeping empty
pieces. -/
def splitCommaChars : List Char → List (List Char)
  | [] => [[]]
  | c :: cs =>
    if c = ',' then [] :: splitCommaChars cs
    else
      match splitCommaChars cs with
      | [] => [[c]]
      | g :: gs => (c :: g) :: gs

/-- The tag normalization applied to comma-separated string tags throughout
data_handler.py: split on commas, strip each piece, keep the non-empty
results (the comprehension of lines 179, 231, 314 and 356). -/
def splitTags (s : String) : List String :=
  ((splitCommaChars s.data).map pyStripChars).filterMap
    (fun cs => if cs.isEmpty then none else some (String.mk cs))

/-- Python str.lower over the characters of a string (ASCII case folding, the
range this repository's data uses). -/
def lowerChars (s : String) : List Char := s.data.map Char.toLower

/-- Whether the second list starts with the first. -/
def startsWithChars : List Char → List Char → Bool
  | [], _ => true
  | _ :: _, [] => false
  | c :: cs, d :: ds => c == d && startsWithChars cs ds

/-- Python substring membership q in s on character lists. -/
def containsSub (p : List Char) : List Char → Bool
  | [] => p.isEmpty
  | c :: cs => startsWithChars p (c :: cs) || containsSub p cs

/-- Case-insensitive substring test, Python's q.lower() in s.lower(). -/
def containsCI (q s : String) : Bool := containsSub (lowerChars q) (lowerChars s)

/-- Lexicographic comparison of character lists by code point, Python's
string <= (a shorter string that is a prefix of a longer one comes
first). -/
def lexLe : List Char → List Char → Bool
  | [], _ => true
  | _ :: _, [] => false
  | c :: cs, d :: ds => if c = d then lexLe cs ds else decide (c < d)

/-- Python string <= as a proposition, for sorting tag lists. -/
def strLeP (a b : String) : Prop := lexLe a.data b.data = true

instance : DecidableRel strLeP := fun a b => instDecidableEqBool (lexLe a.data b.data) true

theorem lexLe_total : ∀ x y : List Char, lexLe x y = true ∨ lexLe y x = true
  | [], _ => Or.inl rfl
  | _ :: _, [] => Or.inr rfl
  | c :: cs, d :: ds => by
    by_cases h : c = d
    · subst h
      simpa [lexLe] using lexLe_total cs ds
    · rcases lt_or_gt_of_ne h with hlt | hgt
      · exact Or.inl (by simp [lexLe, h, hlt])
      · exact Or.inr (by simp [lexLe, Ne.symm h, hgt])

theorem lexLe_trans :
    ∀ x y z : List Char, lexLe x y = true → lexLe y z = true → lexLe x z = true
  | [], _, _, _, _ => rfl
  | _ :: _, [], _, h, _ => by simp [lexLe] at h
  | _ :: _, _ :: _, [], _, h => by simp [lexLe] at h
  | c :: cs, d :: ds, e :: es, h1, h2 => by
    by_cases hcd : c = d
    · subst hcd
      by_cases hde : c = e
      · subst hde
        simp only [lexLe, if_pos rfl] at h1 h2 ⊢
        exact lexLe_trans cs ds es h1 h2
      · simpa [lexLe, hde] using h2
    · by_cases hde : d = e
      · subst hde
        simpa [lexLe, hcd] using h1
      · have hcd' : c < d := by
          by_contra hn
          simp [lexLe, hcd, hn] at h1
        have hde' : d < e := by
          by_contra hn
          simp [lexLe, hde, hn] at h2
        have hce : c < e := lt_trans hcd' hde'
        simp [lexLe, ne_of_lt hce, hce]

instance : IsTotal String strLeP := ⟨fun a b => lexLe_total a.data b.data⟩

instance : IsTrans String strLeP := ⟨fun a b c => lexLe_trans a.data b.data c.data⟩

/-- Python's sorted() on strings: ascending lexicographic order. -/
def sortStrings (l : List String) : List String := List.insertionSort strLeP l

/-- Tags as stored on a task dict: either a JSON list of strings or a single
comma-separated string (both shapes occur in the repository's data and are
accepted by every reader, per get_all_tags lines 309-315 and
get_filtered_tasks lines 354-356). -/
inductive TagsVal where
  | ofList (l : List String)
  | ofStr (s : String)
deriving DecidableEq, Repr

/-- The state of the tags key of a task dict or update payload.  The three
cases matter because Python's readers tell them apart: an absent key makes
dict.get return its default, a key stored as JSON null (the tags column is
nullable, and add_task or import_from_json with tags: None writes NULL)
makes dict.get return None — which is neither a list nor a str and, in the
tag filter of get_filtered_tasks, raises TypeError — and a present value is
a list or a comma-separated string. -/
inductive TagsField where
  | absent
  | null
  | val (v : TagsVal)
deriving DecidableEq, Repr

/-- A task dict as the query engine sees it (the output shape of
get_all_tasks, lines 71-111: dates already formatted back to strings).  Only
the keys the query engine reads are listed.  For the scalar fields,
Option.none stands for an absent key and also for a JSON null: of these
only due_date is a nullable column, and every reader guards it with a
truthiness test, so null and absent are indistinguishable there (title,
description, priority and status are NOT NULL by the schema).  The tags
field keeps the three-way distinction of TagsField, because a JSON-null
tags value behaves differently from an absent key in the tag filter.
Fields not read by get_filtered_tasks, get_task_statistics or get_all_tags
(assigned_to, timestamps, recurring, metadata) are omitted from this
read-side view. -/
structure Task where
  title : Option String := none
  description : Option String := none
  priority : Option String := none
  status : Option String := none
  due_date : Option String := none
  tags : TagsField := TagsField.absent
deriving DecidableEq, Repr

/-- A row of the tasks table (data_handler.py lines 38-55).  JSONB metadata
is modelled as an association list standing for a JSON object; timestamps
are abstract Nat counters. -/
structure Row where
  title : String := ""
  description : String := ""
  priority : String := "Medium"
  status : String := "Not Started"
  due_date : Option Date := none
  tags : List String := []
  assigned_to : Option String := none
  created_at : Nat := 0
  updated_at : Nat := 0
  completed_at : Option Nat := none
  recurring : Bool := false
  recurring_pattern : Option String := none
  metadata : Option (List (String × String)) := none
deriving DecidableEq, Repr

/-- Zero-padded decimal rendering of a number, for strftime. -/
def padNat (width n : Nat) : String :=
  let s := toString n
  String.mk (List.replicate (width - s.length) '0') ++ s

/-- strftime with the format %Y-%m-%d, as get_all_tasks applies to due_date
(line 92). -/
def formatDate (d : Date) : String :=
  padNat 4 d.year ++ "-" ++ padNat 2 d.month ++ "-" ++ padNat 2 d.day

/-- The row-to-dict conversion of get_all_tasks and get_task_by_id (lines
86-104), restricted to the fields of the read-side view: each column is
copied through unchanged, except that a present due_date is formatted back
to its ISO string.  Note that priority and status are NOT normalized here:
whatever string the row holds is passed through. -/
def rowToTaskDict (r : Row) : Task :=
  { title := some r.title,
    description := some r.description,
    priority := some r.priority,
    status := some r.status,
    due_date := (r.due_date).map formatDate,
    tags := TagsField.val (TagsVal.ofList r.tags) }

/-- Effective tag list of a task dict, as computed by get_filtered_tasks
lines 354-356: the tags value with default [] for an absent key, split and
stripped when it is a comma-separated string.  On a JSON-null tags value the
Python line 358 raises TypeError before any membership result exists;
get_filtered_tasks models that exception through filterFaults below, so the
[] returned here for null is never consulted on that path (get_all_tags'
own loop skips a null the same way, it being neither a list nor a str). -/
def taskTags (t : Task) : List String :=
  match t.tags with
  | TagsField.absent => []
  | TagsField.null => []
  | TagsField.val (TagsVal.ofList l) => l
  | TagsField.val (TagsVal.ofStr s) => splitTags s

/-- The search predicate of get_filtered_tasks lines 346-350: a task is kept
unless a non-empty query is a case-insensitive substring of neither the
title nor the description (dict.get defaults give absent fields the empty
string). -/
def matchesSearch (q : String) (t : Task) : Bool :=
  if q = "" then true
  else containsCI q (t.title.getD "") || containsCI q (t.description.getD "")

/-- The tag predicate of get_filtered_tasks lines 353-359: a falsy (absent
or empty) filter_tag imposes no constraint; otherwise the tag must be an
exact member of the task's effective tag list. -/
def matchesTag (filter_tag : Option String) (t : Task) : Bool :=
  match filter_tag with
  | none => true
  | some tag => if tag = "" then true else (taskTags t).contains tag

/-- The priority rank dictionary of lines 367 and 393 with its .get default
1: High 0, Medium 1, Low 2, anything else 1 (the Medium rank). -/
def priority_order (p : String) : Nat :=
  if p = "High" then 0 else if p = "Medium" then 1 else if p = "Low" then 2 else 1

/-- The status rank dictionary of line 386 with its .get default 0: Not
Started 0, In Progress 1, Completed 2, anything else 0. -/
def status_order (s : String) : Nat :=
  if s = "Not Started" then 0
  else if s = "In Progress" then 1
  else if s = "Completed" then 2
  else 0

/-- The due-date sort key of lines 374-381 mapped through encodeDate: a
missing or empty due_date, or one strptime rejects, keys as
datetime.date.max; otherwise the parsed date. -/
def dueKey (t : Task) : Nat :=
  match t.due_date with
  | none => encodeDate dateMax
  | some s =>
    if s = "" then encodeDate dateMax
    else
      match parseDate s with
      | some d => encodeDate d
      | none => encodeDate dateMax

/-- Comparison by an extracted Nat key, the order Python's sorted(key=...)
sorts by. -/
def keyLe {α : Type} (key : α → Nat) (a b : α) : Prop := key a ≤ key b

instance {α : Type} (key : α → Nat) : DecidableRel (keyLe key) :=
  fun a b => Nat.decLe (key a) (key b)

instance {α : Type} (key : α → Nat) : IsTotal α (keyLe key) :=
  ⟨fun a b => Nat.le_total (key a) (key b)⟩

instance {α : Type} (key : α → Nat) : IsTrans α (keyLe key) :=
  ⟨fun _ _ _ h1 h2 => Nat.le_trans h1 h2⟩

/-- Python's stable sorted(items, key=...) rendered as insertion sort on the
key order. -/
def sortByKey {α : Type} (key : α → Nat) (l : List α) : List α :=
  List.insertionSort (keyLe key) l

/-- The Priority sort key of lines 368-371: the priority rank of the pair's
task, with dict.get defaults for a missing field and an unknown value. -/
def priorityKey (kv : String × Task) : Nat := priority_order (kv.2.priority.getD "Medium")

/-- The Due Date sort key of lines 374-381 on an (id, task) pair. -/
def dueDateKey (kv : String × Task) : Nat := dueKey kv.2

/-- The Status sort key of lines 385-390. -/
def statusKey (kv : String × Task) : Nat := status_order (kv.2.status.getD "Not Started")

/-- The sort dispatch of get_filtered_tasks lines 364-397 over the (id,
task) pairs: Priority, Due Date or Status key, anything else defaulting to
the Priority key. -/
def sortTasks (sort_by : String) (l : List (String × Task)) : List (String × Task) :=
  if sort_by = "Priority" then sortByKey priorityKey l
  else if sort_by = "Due Date" then sortByKey dueDateKey l
  else if sort_by = "Status" then sortByKey statusKey l
  else sortByKey priorityKey l

/-- Whether the filter loop of get_filtered_tasks raises: with a truthy
filter_tag (line 353), the first task that passes the search filter while
storing a JSON-null tags value reaches line 358 as filter_tag not in None,
a TypeError that the blanket except of lines 401-403 converts into
returning the empty dict.  A null-tags task that fails the search filter is
skipped at line 350 before the tag code runs. -/
def filterFaults (search_query : String) (filter_tag : Option String)
    (tasks : List (String × Task)) : Bool :=
  match filter_tag with
  | none => false
  | some tag =>
    if tag = "" then false
    else tasks.any (fun kv =>
      matchesSearch search_query kv.2 && (kv.2.tags == TagsField.null))

/-- get_filtered_tasks (lines 323-403) over a snapshot of the task
collection, as (id, task) pairs in the store's insertion order: when the
tag filter would hit a JSON-null tags value the whole call returns the
empty collection (the caught TypeError); otherwise keep the tasks passing
both the search and the tag predicate, then sort by the requested key; dict
round-trips preserve the resulting order. -/
def get_filtered_tasks (search_query : String) (filter_tag : Option String)
    (sort_by : String) (tasks : List (String × Task)) : List (String × Task) :=
  if filterFaults search_query filter_tag tasks then []
  else
    sortTasks sort_by
      (tasks.filter (fun kv => matchesSearch search_query kv.2 && matchesTag filter_tag kv.2))

/-- One iteration of the tag-collection loop of get_all_tags lines 308-315:
list tags are appended verbatim, a non-empty string tag value is split,
stripped and filtered, anything else contributes nothing. -/
def collectStep (acc : List String) (t : Task) : List String :=
  match t.tags with
  | TagsField.absent => acc
  | TagsField.null => acc
  | TagsField.val (TagsVal.ofList l) => acc ++ l
  | TagsField.val (TagsVal.ofStr s) => if s = "" then acc else acc ++ splitTags s

/-- The tag-collection loop of get_all_tags lines 307-315. -/
def collectTags (tasks : List Task) : List String :=
  tasks.foldl collectStep []

/-- get_all_tags (lines 296-321): collect, deduplicate (Python's set) and
sort ascending. -/
def get_all_tags (tasks : List Task) : List String :=
  sortStrings (collectTags tasks).dedup

/-- Python dict.get(k, default) on a counts dictionary rendered as an
insertion-ordered association list. -/
def dictGet (d : List (String × Nat)) (k : String) (dflt : Nat) : Nat :=
  match d.find? (fun kv => kv.1 == k) with
  | some kv => kv.2
  | none => dflt

/-- Python d[k] = v on a counts dictionary: overwrite in place when the key
exists, append otherwise. -/
def dictSet (d : List (String × Nat)) (k : String) (v : Nat) : List (String × Nat) :=
  if d.any (fun kv => kv.1 == k) then
    d.map (fun kv => if kv.1 == k then (kv.1, v) else kv)
  else d ++ [(k, v)]

/-- One counting step d[k] = d.get(k, 0) + 1, as in get_task_statistics
lines 442 and 448. -/
def bump (d : List (String × Nat)) (k : String) : List (String × Nat) :=
  dictSet d k (dictGet d k 0 + 1)

/-- One iteration of the overdue/due-soon loop of get_task_statistics lines
455-468, on the accumulator (overdue_count, due_soon_count). -/
def dueLoop (today : Date) (acc : Nat × Nat) (t : Task) : Nat × Nat :=
  if t.status == some "Completed" then acc
  else
    match t.due_date with
    | none => acc
    | some s =>
      if s = "" then acc
      else
        match parseDate s with
        | none => acc
        | some d =>
          if dateLtB d today then (acc.1 + 1, acc.2)
          else if dateLeB d (addDays3 today) then (acc.1, acc.2 + 1)
          else acc

/-- The statistics report of get_task_statistics (lines 428-485). -/
structure Stats where
  total_tasks : Nat
  status_counts : List (String × Nat)
  priority_counts : List (String × Nat)
  overdue_count : Nat
  due_soon_count : Nat
deriving DecidableEq, Repr

/-- get_task_statistics (lines 428-485) over a snapshot of the task
collection; today is the caller's current date (datetime.date.today() at
line 451). -/
def get_task_statistics (today : Date) (tasks : List Task) : Stats :=
  let sc := tasks.foldl (fun d t => bump d (t.status.getD "Not Started"))
    [("Not Started", 0), ("In Progress", 0), ("Completed", 0)]
  let pc := tasks.foldl (fun d t => bump d (t.priority.getD "Medium"))
    [("High", 0), ("Medium", 0), ("Low", 0)]
  let od := tasks.foldl (dueLoop today) (0, 0)
  { total_tasks := tasks.length,
    status_counts := sc,
    priority_counts := pc,
    overdue_count := od.1,
    due_soon_count := od.2 }

/-- The partial task_data dict accepted by update_task (lines 205-270).
Option.none on a scalar field covers both an absent key and an explicit
None value: dict.get treats them alike and the None filter at line 259
drops both.  due_date is the raw string form callers pass. -/
structure UpdatePayload where
  title : Option String := none
  description : Option String := none
  priority : Option String := none
  status : Option String := none
  due_date : Option String := none
  tags : TagsField := TagsField.absent
  assigned_to : Option String := none
  recurring : Option Bool := none
  recurring_pattern : Option String := none
  metadata : Option (List (String × String)) := none
deriving DecidableEq, Repr

/-- The due-date processing of update_task lines 220-225 followed by the
fate of the value at the database: an absent due_date stays None and is
dropped by the None filter (result some none); a non-empty string is parsed,
an unparseable one becoming None and hence dropped; the empty string is
falsy, skips the parse, survives the None filter and is then rejected by the
Date column, aborting the whole update (result none, the exception path of
lines 266-268). -/
def processDueDate : Option String → Option (Option Date)
  | none => some none
  | some s => if s = "" then none else some (parseDate s)

/-- The tags processing of update_task lines 228-231 and the None filter of
line 259: an absent key defaults to [] (which, not being None, IS written),
an explicit None is dropped, a comma-separated string is split, a list
passes through verbatim.  Option.none means the tags column keeps its stored
value. -/
def processTags : TagsField → Option (List String)
  | TagsField.absent => some []
  | TagsField.null => none
  | TagsField.val (TagsVal.ofList l) => some l
  | TagsField.val (TagsVal.ofStr s) => some (splitTags s)

/-- The completed_at computation of update_task lines 234-239: a timestamp
is taken exactly when the payload status is Completed and the task currently
exists with a status other than Completed. -/
def completedStamp (now : Nat) (store : List (String × Row)) (task_id : String)
    (td : UpdatePayload) : Option Nat :=
  if td.status = some "Completed" then
    match store.find? (fun kv => kv.1 == task_id) with
    | some kv => if kv.2.status = "Completed" then none else some now
    | none => none
  else none

/-- Application of the surviving update_data entries (lines 242-263) to one
row: each field present after the None filter overwrites the column, absent
fields keep their stored values; updated_at is touched by the table's
onupdate clause. -/
def applyUpdate (now : Nat) (r : Row) (td : UpdatePayload) (due : Option Date)
    (tagsOpt : Option (List String)) (stamp : Option Nat) : Row :=
  { title := td.title.getD r.title,
    description := td.description.getD r.description,
    priority := td.priority.getD r.priority,
    status := td.status.getD r.status,
    due_date := match due with | some d => some d | none => r.due_date,
    tags := tagsOpt.getD r.tags,
    assigned_to := match td.assigned_to with | some v => some v | none => r.assigned_to,
    created_at := r.created_at,
    updated_at := now,
    completed_at := match stamp with | some c => some c | none => r.completed_at,
    recurring := td.recurring.getD r.recurring,
    recurring_pattern :=
      match td.recurring_pattern with | some v => some v | none => r.recurring_pattern,
    metadata := match td.metadata with | some v => some v | none => r.metadata }

/-- update_task (lines 205-270) over the store as an insertion-ordered list
of (id, row) pairs; now is the clock value datetime.datetime.now() would
return.  The failure path (the empty-string due_date the Date column
rejects) leaves the store unchanged and returns false; otherwise every row
matching the id is updated and the returned flag is rowcount > 0. -/
def update_task (now : Nat) (store : List (String × Row)) (task_id : String)
    (td : UpdatePayload) : List (String × Row) × Bool :=
  match processDueDate td.due_date with
  | none => (store, false)
  | some due =>
    let stamp := completedStamp now store task_id td
    (store.map (fun kv =>
        if kv.1 == task_id then (kv.1, applyUpdate now kv.2 td due (processTags td.tags) stamp)
        else kv),
      store.any (fun kv => kv.1 == task_id))


/-! Generic facts about the stable key sort. -/

theorem filter_orderedInsert_key {α : Type} (key : α → Nat) (k : Nat) (a : α) :
    ∀ l : List α,
      (List.orderedInsert (keyLe key) a l).filter (fun x => key x == k)
        = if key a == k then a :: l.filter (fun x => key x == k)
          else l.filter (fun x => key x == k)
  | [] => by
    by_cases hpa : key a == k <;> simp [List.orderedInsert, List.filter, hpa]
  | b :: l => by
    by_cases hab : keyLe key a b
    · rw [List.orderedInsert, if_pos hab]
      by_cases hpa : key a == k <;> simp [List.filter, hpa]
    · rw [List.orderedInsert, if_neg hab]
      have hba : key b < key a := Nat.lt_of_not_le hab
      by_cases hpa : key a == k
      · have hka : key a = k := by simpa using hpa
        have hpb : (key b == k) = false := by
          simp only [beq_eq_false_iff_ne, ne_eq]
          omega
        simp [List.filter, hpb, hpa, filter_orderedInsert_key key k a l]
      · by_cases hpb : key b == k <;>
          simp [List.filter, hpb, hpa, filter_orderedInsert_key key k a l]

/-- Stability of the key sort, stated through filters: the tasks carrying any
one key value come out in exactly their input order. -/
theorem filter_sortByKey {α : Type} (key : α → Nat) (k : Nat) :
    ∀ l : List α,
      (sortByKey key l).filter (fun x => key x == k) = l.filter (fun x => key x == k)
  | [] => rfl
  | a :: l => by
    show (List.orderedInsert _ a (List.insertionSort _ l)).filter _ = _
    rw [filter_orderedInsert_key, show List.insertionSort (keyLe key) l = sortByKey key l from rfl,
      filter_sortByKey key k l, List.filter_cons]

theorem sortByKey_pairwise {α : Type} (key : α → Nat) (l : List α) :
    (sortByKey key l).Pairwise (fun a b => key a ≤ key b) :=
  List.sorted_insertionSort (keyLe key) l

theorem sortByKey_perm {α : Type} (key : α → Nat) (l : List α) :
    (sortByKey key l).Perm l :=
  List.perm_insertionSort (keyLe key) l


theorem sortTasks_priority_eq (l : List (String × Task)) :
    sortTasks "Priority" l = sortByKey priorityKey l := rfl

theorem sortTasks_dueDate_eq (l : List (String × Task)) :
    sortTasks "Due Date" l = sortByKey dueDateKey l := rfl

/-- C8: sorting by Priority is a stable permutation of its input that is
non-decreasing under the rank High 0, Medium 1, Low 2, with a missing or
unrecognized priority ranked like Medium. -/
theorem priority_sort_spec :
    ∀ l : List (String × Task),
      (sortTasks "Priority" l).Pairwise (fun a b => priorityKey a ≤ priorityKey b)
        ∧ (sortTasks "Priority" l).Perm l
        ∧ (∀ k : Nat, (sortTasks "Priority" l).filter (fun kv => priorityKey kv == k)
            = l.filter (fun kv => priorityKey kv == k))
        ∧ (∀ p : String, p ≠ "High" → p ≠ "Medium" → p ≠ "Low" →
            priority_order p = priority_order "Medium")
        ∧ (∀ t : Task, t.priority = none →
            priorityKey ("", t) = priority_order "Medium") := by
  intro l
  rw [sortTasks_priority_eq]
  refine ⟨sortByKey_pairwise priorityKey l, sortByKey_perm priorityKey l,
    fun k => filter_sortByKey priorityKey k l, ?_, ?_⟩
  · intro p h1 h2 h3
    simp [priority_order, h1, h2, h3]
  · intro t ht
    simp [priorityKey, ht, priority_order]


/-! Facts about dates, parsing and the due-date key. -/

theorem daysInMonth_le_31 (y m : Nat) : daysInMonth y m ≤ 31 := by
  unfold daysInMonth
  split_ifs <;> omega

theorem mkValidDate_valid (y m d : Nat) (dt : Date) :
    mkValidDate y m d = some dt → validDateB dt = true := by
  unfold mkValidDate
  split
  next hcond =>
    intro h
    injection h with h'
    subst h'
    simp only [validDateB, Bool.and_eq_true, decide_eq_true_eq]
    omega
  next =>
    intro h
    simp at h

theorem parseDate_valid (s : String) (dt : Date) :
    parseDate s = some dt → validDateB dt = true := by
  intro h
  unfold parseDate at h
  dsimp only at h
  repeat' split at h
  all_goals first | exact mkValidDate_valid _ _ _ _ h | exact Option.noConfusion h

theorem validDateB_dateMax : validDateB dateMax = true := by decide

/-- On valid dates the Nat encoding is strictly monotone in the calendar
order, so the due-date sort key orders dated tasks by date. -/
theorem encode_lt_of_dateLt (a b : Date) (ha : validDateB a = true)
    (hb : validDateB b = true) (h : dateLtB a b = true) :
    encodeDate a < encodeDate b := by
  simp only [validDateB, Bool.and_eq_true, decide_eq_true_eq] at ha hb
  simp only [dateLtB, Bool.or_eq_true, Bool.and_eq_true, decide_eq_true_eq] at h
  have hda := daysInMonth_le_31 a.year a.month
  have hdb := daysInMonth_le_31 b.year b.month
  unfold encodeDate
  omega

/-- The parsed due date of a task dict: Option.none when the field is absent
or strptime rejects it. -/
def parsedDue (t : Task) : Option Date :=
  match t.due_date with
  | none => none
  | some s => parseDate s

/-- Whether a task counts as dated for sorting: due_date present and
parseable. -/
def isDatedB (t : Task) : Bool := (parsedDue t).isSome

theorem parsedDue_valid (t : Task) (d : Date) :
    parsedDue t = some d → validDateB d = true := by
  cases ht : t.due_date with
  | none => simp [parsedDue, ht]
  | some s =>
    intro h
    simp only [parsedDue, ht] at h
    exact parseDate_valid s d h

theorem dueKey_undated (t : Task) (h : isDatedB t = false) :
    dueKey t = encodeDate dateMax := by
  cases ht : t.due_date with
  | none => simp [dueKey, ht]
  | some s =>
    simp only [isDatedB, parsedDue, ht] at h
    cases hp : parseDate s with
    | some d => rw [hp] at h; simp at h
    | none => simp [dueKey, ht, hp]

theorem dueKey_dated (t : Task) (d : Date) (h : parsedDue t = some d) :
    dueKey t = encodeDate d := by
  cases ht : t.due_date with
  | none => simp [parsedDue, ht] at h
  | some s =>
    simp only [parsedDue, ht] at h
    by_cases hs : s = ""
    · subst hs
      simp [show parseDate "" = none from rfl] at h
    · simp [dueKey, ht, hs, h]


/-- A task with no due_date at all. -/
def undatedTask : Task := {}

/-- A task dated exactly datetime.date.max, the parseable string
9999-12-31. -/
def maxDatedTask : Task := { due_date := some "9999-12-31" }

/-- C3 counterexample: sorting by Due Date does NOT place every undated task
after every dated task.  A task dated exactly 9999-12-31 carries the same
sort key as an undated task, and the stable sort leaves an earlier undated
task in front of it: on the concrete input below the output keeps the
undated task first. -/
theorem due_date_sort_undated_last_cex :
    ¬ ∀ l : List (String × Task),
        (sortTasks "Due Date" l).Pairwise
          (fun a b => isDatedB b.2 = true → isDatedB a.2 = true) := by
  intro hclaim
  have h2 := hclaim [("a", undatedTask), ("b", maxDatedTask)]
  rw [show sortTasks "Due Date" [("a", undatedTask), ("b", maxDatedTask)]
      = [("a", undatedTask), ("b", maxDatedTask)] by decide] at h2
  have h3 := (List.pairwise_cons.mp h2).1 ("b", maxDatedTask) (by simp)
  have h4 : isDatedB maxDatedTask = true := by decide
  have h5 : isDatedB undatedTask = false := by decide
  rw [h3 h4] at h5
  exact Bool.noConfusion h5

/-- C3 as amended: sorting by Due Date is a stable permutation of its input,
non-decreasing on the due-date key; dated tasks appear in ascending calendar
order; a task with a missing or unparseable due_date keys as the maximum
representable date 9999-12-31 (so sorting never fails on malformed date
strings, demoting them to undated semantics) and is therefore placed after
every task dated strictly before 9999-12-31 — a task dated exactly
9999-12-31 ties with undated ones and stays in input order relative to
them. -/
theorem due_date_sort_spec :
    ∀ l : List (String × Task),
      (sortTasks "Due Date" l).Pairwise (fun a b => dueDateKey a ≤ dueDateKey b)
        ∧ (sortTasks "Due Date" l).Perm l
        ∧ (∀ k : Nat, (sortTasks "Due Date" l).filter (fun kv => dueDateKey kv == k)
            = l.filter (fun kv => dueDateKey kv == k))
        ∧ (sortTasks "Due Date" l).Pairwise (fun a b => ∀ da db,
            parsedDue a.2 = some da → parsedDue b.2 = some db → dateLeB da db = true)
        ∧ (sortTasks "Due Date" l).Pairwise (fun a b => ∀ db,
            isDatedB a.2 = false → parsedDue b.2 = some db → dateLtB db dateMax = false)
        ∧ (∀ t : Task, isDatedB t = false → dueKey t = encodeDate dateMax) := by
  intro l
  rw [sortTasks_dueDate_eq]
  have hpw := sortByKey_pairwise dueDateKey l
  refine ⟨hpw, sortByKey_perm dueDateKey l, fun k => filter_sortByKey dueDateKey k l,
    ?_, ?_, dueKey_undated⟩
  · refine hpw.imp ?_
    intro a b hle da db hda hdb
    have ea : dueDateKey a = encodeDate da := dueKey_dated a.2 da hda
    have eb : dueDateKey b = encodeDate db := dueKey_dated b.2 db hdb
    rw [ea, eb] at hle
    unfold dateLeB
    cases hlt : dateLtB db da with
    | false => rfl
    | true =>
      have := encode_lt_of_dateLt db da (parsedDue_valid b.2 db hdb)
        (parsedDue_valid a.2 da hda) hlt
      omega
  · refine hpw.imp ?_
    intro a b hle db hnd hdb
    have ea : dueDateKey a = encodeDate dateMax := dueKey_undated a.2 hnd
    have eb : dueDateKey b = encodeDate db := dueKey_dated b.2 db hdb
    rw [ea, eb] at hle
    cases hlt : dateLtB db dateMax with
    | false => rfl
    | true =>
      have := encode_lt_of_dateLt db dateMax (parsedDue_valid b.2 db hdb)
        validDateB_dateMax hlt
      omega


/-! The filter predicates, claim C2. -/

theorem mem_sortTasks (sort_by : String) (l : List (String × Task)) (kv : String × Task) :
    kv ∈ sortTasks sort_by l ↔ kv ∈ l := by
  unfold sortTasks
  split_ifs <;> exact (sortByKey_perm _ l).mem_iff

theorem matchesSearch_iff (q : String) (t : Task) :
    matchesSearch q t = true ↔
      (q ≠ "" → (containsCI q (t.title.getD "") || containsCI q (t.description.getD "")) = true) := by
  unfold matchesSearch
  by_cases h : q = "" <;> simp [h]

theorem matchesTag_iff (ft : Option String) (t : Task) :
    matchesTag ft t = true ↔ (∀ tag, ft = some tag → tag ≠ "" → tag ∈ taskTags t) := by
  cases ft with
  | none => simp [matchesTag]
  | some tag =>
    by_cases h : tag = "" <;> simp [matchesTag, h, List.elem_iff]

/-- A task carrying the tag x in list form. -/
def xTagTask : Task := { tags := TagsField.val (TagsVal.ofList ["x"]) }

/-- A task whose stored tags value is JSON null. -/
def nullTagsTask : Task := { tags := TagsField.null }

/-- C2 counterexample: retained-iff-both-predicates fails on a reachable
input.  With filter_tag x and an empty search query, a collection holding a
task tagged x together with a task whose tags value is JSON null makes the
tag test hit filter_tag not in None; the TypeError is swallowed by the
blanket except and the whole call returns the empty collection, so the task
that satisfies both predicates (x is a member of its tag set, the empty
query imposes no constraint) is not retained. -/
theorem filter_null_tags_cex :
    "x" ∈ taskTags xTagTask
      ∧ get_filtered_tasks "" (some "x") "Priority"
          [("a", xTagTask), ("b", nullTagsTask)] = []
      ∧ ¬(("a", xTagTask) ∈ get_filtered_tasks "" (some "x") "Priority"
          [("a", xTagTask), ("b", nullTagsTask)]) := by
  refine ⟨by decide, by decide, by decide⟩

/-- C2 as amended: as long as the tag filter does not fault — that is,
unless a non-empty filter_tag is given and some task passing the search
filter stores a JSON-null tags value — a task survives get_filtered_tasks
exactly when it is in the input and passes both predicates: a non-empty
search query must be a case-insensitive substring of the title or of the
description, and a given non-empty filter tag must be an exact member of
the task's effective tag set; an empty or absent query or tag imposes no
constraint.  When the tag filter does fault, the TypeError is caught and
the whole call returns the empty collection; the fault happens exactly when
a non-empty filter_tag meets a search-passing task with null tags. -/
theorem filter_retains_iff :
    ∀ (search_query : String) (filter_tag : Option String) (sort_by : String)
      (tasks : List (String × Task)) (kv : String × Task),
      (filterFaults search_query filter_tag tasks = false →
        (kv ∈ get_filtered_tasks search_query filter_tag sort_by tasks ↔
          kv ∈ tasks
            ∧ (search_query ≠ "" →
                (containsCI search_query (kv.2.title.getD "")
                  || containsCI search_query (kv.2.description.getD "")) = true)
            ∧ (∀ tag, filter_tag = some tag → tag ≠ "" → tag ∈ taskTags kv.2)))
        ∧ (filterFaults search_query filter_tag tasks = true →
            get_filtered_tasks search_query filter_tag sort_by tasks = [])
        ∧ (filterFaults search_query filter_tag tasks = true ↔
            ∃ tag, filter_tag = some tag ∧ tag ≠ ""
              ∧ ∃ p ∈ tasks, matchesSearch search_query p.2 = true
                ∧ p.2.tags = TagsField.null) := by
  intro q ft sb tasks kv
  refine ⟨?_, ?_, ?_⟩
  · intro hf
    unfold get_filtered_tasks
    rw [if_neg (by simp [hf])]
    rw [mem_sortTasks, List.mem_filter, Bool.and_eq_true, matchesSearch_iff, matchesTag_iff]
  · intro hf
    unfold get_filtered_tasks
    rw [if_pos hf]
  · unfold filterFaults
    cases ft with
    | none => simp
    | some tag =>
      by_cases htag : tag = ""
      · simp [htag]
      · simp [htag, List.any_eq_true]


/-! The overdue / due-soon statistics, claim C1. -/

/-- The claim's overdue predicate: status other than Completed, due_date
present and parseable, strictly before today. -/
def specOverdue (today : Date) (t : Task) : Bool :=
  !(t.status == some "Completed") &&
    (match parsedDue t with
     | some d => dateLtB d today
     | none => false)

/-- The claim's due-soon predicate: status other than Completed, due_date
present and parseable, in the inclusive range from today to today plus three
days. -/
def specDueSoon (today : Date) (t : Task) : Bool :=
  !(t.status == some "Completed") &&
    (match parsedDue t with
     | some d => dateLeB today d && dateLeB d (addDays3 today)
     | none => false)

theorem dueLoop_step (today : Date) (acc : Nat × Nat) (t : Task) :
    dueLoop today acc t =
      (acc.1 + (if specOverdue today t then 1 else 0),
       acc.2 + (if specDueSoon today t then 1 else 0)) := by
  unfold dueLoop specOverdue specDueSoon parsedDue
  cases hst : (t.status == some "Completed") with
  | true => simp [hst]
  | false =>
    cases ht : t.due_date with
    | none => simp [hst, ht]
    | some s =>
      by_cases hs : s = ""
      · subst hs
        simp [hst, show parseDate "" = none from rfl]
      · cases hp : parseDate s with
        | none => simp [hst, hs, hp]
        | some d =>
          by_cases hlt : dateLtB d today = true
          · simp [hst, hs, hp, hlt, dateLeB]
          · by_cases hle : dateLeB d (addDays3 today) = true
            · have hle' : dateLtB (addDays3 today) d = false := by
                simpa [dateLeB] using hle
              simp [hst, hs, hp, hlt, hle', dateLeB]
            · have hle' : dateLtB (addDays3 today) d = true := by
                simpa [dateLeB] using hle
              simp [hst, hs, hp, hlt, hle', dateLeB]

theorem foldl_dueLoop (today : Date) :
    ∀ (tasks : List Task) (acc : Nat × Nat),
      tasks.foldl (dueLoop today) acc
        = (acc.1 + tasks.countP (fun t => specOverdue today t),
           acc.2 + tasks.countP (fun t => specDueSoon today t))
  | [], acc => by simp
  | t :: ts, acc => by
    rw [List.foldl_cons, foldl_dueLoop today ts (dueLoop today acc t), dueLoop_step]
    by_cases h1 : specOverdue today t <;> by_cases h2 : specDueSoon today t <;>
      simp [h1, h2, List.countP_cons] <;> omega

/-- The spec's worked example tasks for today = 2025-06-10. -/
def exOverdueTask : Task := { due_date := some "2025-06-09", status := some "In Progress" }

def exTodayTask : Task := { due_date := some "2025-06-10", status := some "Not Started" }

def exDoneTask : Task := { due_date := some "2025-06-01", status := some "Completed" }

/-- C1: overdue_count counts exactly the tasks that are not Completed and
whose due_date is present, parseable and strictly before today;
due_soon_count counts exactly those not Completed with a parseable due_date
in the inclusive window from today to today plus three days.  On the spec's
own example with today = 2025-06-10: a task due 2025-06-09 and In Progress
is overdue only, a task due exactly 2025-06-10 and Not Started is due-soon
and not overdue, and a Completed task due 2025-06-01 is counted in
neither. -/
theorem stats_overdue_due_soon_spec :
    ∀ (today : Date) (tasks : List Task),
      ((get_task_statistics today tasks).overdue_count
          = tasks.countP (fun t => specOverdue today t)
        ∧ (get_task_statistics today tasks).due_soon_count
          = tasks.countP (fun t => specDueSoon today t))
      ∧ ((get_task_statistics ⟨2025, 6, 10⟩ [exOverdueTask]).overdue_count = 1
        ∧ (get_task_statistics ⟨2025, 6, 10⟩ [exOverdueTask]).due_soon_count = 0
        ∧ (get_task_statistics ⟨2025, 6, 10⟩ [exTodayTask]).due_soon_count = 1
        ∧ (get_task_statistics ⟨2025, 6, 10⟩ [exTodayTask]).overdue_count = 0
        ∧ (get_task_statistics ⟨2025, 6, 10⟩ [exDoneTask]).overdue_count = 0
        ∧ (get_task_statistics ⟨2025, 6, 10⟩ [exDoneTask]).due_soon_count = 0) := by
  intro today tasks
  have h := foldl_dueLoop today tasks (0, 0)
  constructor
  · constructor
    · show (tasks.foldl (dueLoop today) (0, 0)).1 = _
      rw [h]
      simp
    · show (tasks.foldl (dueLoop today) (0, 0)).2 = _
      rw [h]
      simp
  · exact ⟨by decide, by decide, by decide, by decide, by decide, by decide⟩


/-! The counts dictionaries of get_task_statistics, claims C4 and C6. -/

/-- Keys of a counts dictionary, in insertion order. -/
def dictKeys (d : List (String × Nat)) : List String := d.map Prod.fst

/-- Sum of all values of a counts dictionary. -/
def dictSum (d : List (String × Nat)) : Nat := (d.map Prod.snd).sum

theorem dictGet_cons_eq (a : String) (v dflt : Nat) (d : List (String × Nat)) :
    dictGet ((a, v) :: d) a dflt = v := by
  simp [dictGet, List.find?]

theorem dictGet_cons_ne (a : String) (v dflt : Nat) (d : List (String × Nat))
    (k' : String) (h : a ≠ k') :
    dictGet ((a, v) :: d) k' dflt = dictGet d k' dflt := by
  have hb : ((a : String) == k') = false := by simpa using h
  simp [dictGet, List.find?, hb]

theorem keys_notin_forall {a : String} {d : List (String × Nat)} (h : a ∉ dictKeys d) :
    ∀ kv ∈ d, kv.1 ≠ a := by
  intro p hp hk
  apply h
  rw [← hk]
  exact List.mem_map_of_mem Prod.fst hp

theorem bump_cons_ne (k' k : String) (v : Nat) (d : List (String × Nat)) (h : k' ≠ k) :
    bump ((k', v) :: d) k = (k', v) :: bump d k := by
  have hb : ((k' : String) == k) = false := by simpa using h
  by_cases hany : (d.any (fun kv => kv.1 == k)) = true <;>
    simp [bump, dictSet, dictGet, List.find?, hb, hany, h]

theorem map_overwrite_id (k : String) (w : Nat) (d : List (String × Nat))
    (h : ∀ kv ∈ d, kv.1 ≠ k) :
    d.map (fun kv => if kv.1 = k then (kv.1, w) else kv) = d := by
  induction d with
  | nil => rfl
  | cons a d ih =>
    simp only [List.map_cons, if_neg (h a (by simp)),
      ih (fun kv hkv => h kv (by simp [hkv]))]

theorem bump_cons_eq (k : String) (v : Nat) (d : List (String × Nat))
    (h : ∀ kv ∈ d, kv.1 ≠ k) :
    bump ((k, v) :: d) k = (k, v + 1) :: d := by
  simp [bump, dictSet, dictGet, List.find?]
  exact map_overwrite_id k (v + 1) d h

theorem dictSum_bump (k : String) :
    ∀ d : List (String × Nat), (dictKeys d).Nodup → dictSum (bump d k) = dictSum d + 1
  | [] => fun _ => by simp [bump, dictSet, dictGet, dictSum]
  | (k', v) :: d => fun hnd => by
    rw [dictKeys, List.map_cons, List.nodup_cons] at hnd
    obtain ⟨hkn, hnd'⟩ := hnd
    by_cases h : k' = k
    · subst h
      rw [bump_cons_eq k' v d (keys_notin_forall hkn)]
      simp only [dictSum, List.map_cons, List.sum_cons]
      omega
    · rw [bump_cons_ne k' k v d h]
      have ih := dictSum_bump k d hnd'
      simp only [dictSum, List.map_cons, List.sum_cons] at ih ⊢
      omega

theorem dictGet_bump (k k' : String) :
    ∀ d : List (String × Nat), (dictKeys d).Nodup →
      dictGet (bump d k) k' 0 = dictGet d k' 0 + (if k = k' then 1 else 0)
  | [] => fun _ => by
    by_cases h : k = k'
    · subst h
      simp [bump, dictSet, dictGet, List.find?]
    · have hb : ((k : String) == k') = false := by simpa using h
      simp [bump, dictSet, dictGet, List.find?, hb, h]
  | (a, v) :: d => fun hnd => by
    rw [dictKeys, List.map_cons, List.nodup_cons] at hnd
    obtain ⟨hkn, hnd'⟩ := hnd
    by_cases hak : a = k
    · subst hak
      rw [bump_cons_eq a v d (keys_notin_forall hkn)]
      by_cases hak' : a = k'
      · subst hak'
        rw [dictGet_cons_eq, dictGet_cons_eq]
        simp
      · rw [dictGet_cons_ne a (v + 1) 0 d k' hak', dictGet_cons_ne a v 0 d k' hak']
        simp [hak']
    · rw [bump_cons_ne a k v d hak]
      by_cases hak' : a = k'
      · subst hak'
        rw [dictGet_cons_eq, dictGet_cons_eq]
        have hka : ¬(k = a) := fun hh => hak hh.symm
        simp [hka]
      · rw [dictGet_cons_ne a v 0 (bump d k) k' hak', dictGet_cons_ne a v 0 d k' hak']
        exact dictGet_bump k k' d hnd'

theorem dictKeys_bump (k : String) (d : List (String × Nat)) :
    dictKeys (bump d k)
      = if d.any (fun kv => kv.1 == k) then dictKeys d else dictKeys d ++ [k] := by
  unfold bump dictSet
  split_ifs with h
  · unfold dictKeys
    rw [List.map_map]
    apply List.map_congr_left
    intro kv _
    simp only [Function.comp_apply]
    split <;> rfl
  · simp [dictKeys]

theorem dictKeys_bump_mem (k k' : String) (d : List (String × Nat))
    (h : k' ∈ dictKeys d) : k' ∈ dictKeys (bump d k) := by
  rw [dictKeys_bump]
  split_ifs <;> simp [h]

theorem dictKeys_bump_nodup (k : String) (d : List (String × Nat))
    (h : (dictKeys d).Nodup) : (dictKeys (bump d k)).Nodup := by
  rw [dictKeys_bump]
  split_ifs with hany
  · exact h
  · have hnot : k ∉ dictKeys d := by
      intro hk
      rcases List.mem_map.mp hk with ⟨kv, hkv, hfst⟩
      exact absurd (List.any_eq_true.mpr ⟨kv, hkv, by simp [hfst]⟩) hany
    simp [List.nodup_append, h, hnot]

theorem foldl_bump_nodup (ks : List String) :
    ∀ d : List (String × Nat), (dictKeys d).Nodup → (dictKeys (ks.foldl bump d)).Nodup := by
  induction ks with
  | nil => intro d h; exact h
  | cons k ks ih =>
    intro d h
    exact ih (bump d k) (dictKeys_bump_nodup k d h)

theorem foldl_bump_sum (ks : List String) :
    ∀ d : List (String × Nat), (dictKeys d).Nodup →
      dictSum (ks.foldl bump d) = dictSum d + ks.length := by
  induction ks with
  | nil => intro d _; simp
  | cons k ks ih =>
    intro d h
    rw [List.foldl_cons, ih (bump d k) (dictKeys_bump_nodup k d h), dictSum_bump k d h,
      List.length_cons]
    omega

theorem foldl_bump_get (k' : String) (ks : List String) :
    ∀ d : List (String × Nat), (dictKeys d).Nodup →
      dictGet (ks.foldl bump d) k' 0
        = dictGet d k' 0 + ks.countP (fun x => x == k') := by
  induction ks with
  | nil => intro d _; simp
  | cons k ks ih =>
    intro d h
    rw [List.foldl_cons, ih (bump d k) (dictKeys_bump_nodup k d h), dictGet_bump k k' d h,
      List.countP_cons]
    by_cases hk : k = k'
    · subst hk
      simp
      omega
    · simp [hk]

theorem foldl_bump_keys_mem (k' : String) (ks : List String) :
    ∀ d : List (String × Nat), k' ∈ dictKeys d → k' ∈ dictKeys (ks.foldl bump d) := by
  induction ks with
  | nil => intro d h; exact h
  | cons k ks ih =>
    intro d h
    exact ih (bump d k) (dictKeys_bump_mem k k' d h)

theorem dictGet_const_zero :
    ∀ d : List (String × Nat), (∀ kv ∈ d, kv.2 = 0) → ∀ k, dictGet d k 0 = 0
  | [] => fun _ _ => rfl
  | (a, v) :: d => fun h k => by
    by_cases hak : a = k
    · subst hak
      rw [dictGet_cons_eq]
      exact h (a, v) (by simp)
    · rw [dictGet_cons_ne a v 0 d k hak]
      exact dictGet_const_zero d (fun kv hkv => h kv (by simp [hkv])) k

theorem status_counts_eq (today : Date) (tasks : List Task) :
    (get_task_statistics today tasks).status_counts
      = (tasks.map (fun t => t.status.getD "Not Started")).foldl bump
          [("Not Started", 0), ("In Progress", 0), ("Completed", 0)] := by
  show tasks.foldl (fun d t => bump d (t.status.getD "Not Started")) _ = _
  rw [List.foldl_map]

theorem priority_counts_eq (today : Date) (tasks : List Task) :
    (get_task_statistics today tasks).priority_counts
      = (tasks.map (fun t => t.priority.getD "Medium")).foldl bump
          [("High", 0), ("Medium", 0), ("Low", 0)] := by
  show tasks.foldl (fun d t => bump d (t.priority.getD "Medium")) _ = _
  rw [List.foldl_map]

/-- A task whose status string is outside the three enumerated values. -/
def weirdStatusTask : Task := { status := some "Weird" }

/-- C6 counterexample: on a store holding one task whose status is the
unknown string Weird, the three enumerated status keys all count zero while
total_tasks is 1, so the values of status_counts over those three keys do
not sum to total_tasks (the task is counted under its own new key
Weird). -/
theorem status_counts_three_key_sum_cex :
    ¬ (dictGet ((get_task_statistics ⟨2025, 1, 1⟩ [weirdStatusTask]).status_counts)
          "Not Started" 0
        + dictGet ((get_task_statistics ⟨2025, 1, 1⟩ [weirdStatusTask]).status_counts)
          "In Progress" 0
        + dictGet ((get_task_statistics ⟨2025, 1, 1⟩ [weirdStatusTask]).status_counts)
          "Completed" 0
        = (get_task_statistics ⟨2025, 1, 1⟩ [weirdStatusTask]).total_tasks) := by
  decide

/-- C6 as amended: status_counts and priority_counts always carry all three
enumerated keys (even at count zero), and the values of status_counts summed
over ALL its keys — the three enumerated ones plus one per unknown status
value encountered — equal total_tasks, the unfiltered task count.  The sum
over just the three enumerated keys can fall short exactly when a task
carries a status outside the enumeration. -/
theorem status_counts_keys_total_spec :
    ∀ (today : Date) (tasks : List Task),
      ("Not Started" ∈ dictKeys ((get_task_statistics today tasks).status_counts)
        ∧ "In Progress" ∈ dictKeys ((get_task_statistics today tasks).status_counts)
        ∧ "Completed" ∈ dictKeys ((get_task_statistics today tasks).status_counts)
        ∧ "High" ∈ dictKeys ((get_task_statistics today tasks).priority_counts)
        ∧ "Medium" ∈ dictKeys ((get_task_statistics today tasks).priority_counts)
        ∧ "Low" ∈ dictKeys ((get_task_statistics today tasks).priority_counts))
      ∧ dictSum ((get_task_statistics today tasks).status_counts)
          = (get_task_statistics today tasks).total_tasks := by
  intro today tasks
  rw [status_counts_eq, priority_counts_eq]
  constructor
  · exact ⟨foldl_bump_keys_mem _ _ _ (by decide), foldl_bump_keys_mem _ _ _ (by decide),
      foldl_bump_keys_mem _ _ _ (by decide), foldl_bump_keys_mem _ _ _ (by decide),
      foldl_bump_keys_mem _ _ _ (by decide), foldl_bump_keys_mem _ _ _ (by decide)⟩
  · rw [foldl_bump_sum _ _ (by decide)]
    show _ = tasks.length
    simp [dictSum]

/-- A task carrying unknown enum strings in both priority and status. -/
def wildTask : Task := { priority := some "Urgent", status := some "Weird" }

/-- A database row carrying the same unknown enum strings. -/
def wildRow : Row := { priority := "Urgent", status := "Weird" }

/-- C4 counterexample: a task with priority Urgent and status Weird is NOT
normalized at read time — get_all_tasks' row conversion passes the strings
through unchanged — and statistics does not attribute it to the defaults:
the Medium and Not Started counts stay 0 while new keys Urgent and Weird
appear with count 1. -/
theorem unknown_enum_passthrough_cex :
    (rowToTaskDict wildRow).priority = some "Urgent"
      ∧ ¬((rowToTaskDict wildRow).priority = some "Medium")
      ∧ ¬((rowToTaskDict wildRow).status = some "Not Started")
      ∧ dictGet ((get_task_statistics ⟨2025, 1, 1⟩ [wildTask]).priority_counts) "Medium" 0 = 0
      ∧ dictGet ((get_task_statistics ⟨2025, 1, 1⟩ [wildTask]).priority_counts) "Urgent" 0 = 1
      ∧ dictGet ((get_task_statistics ⟨2025, 1, 1⟩ [wildTask]).status_counts) "Not Started" 0 = 0
      ∧ dictGet ((get_task_statistics ⟨2025, 1, 1⟩ [wildTask]).status_counts) "Weird" 0 = 1 := by
  exact ⟨rfl, by decide, by decide, by decide, by decide, by decide, by decide⟩

/-- C4 as amended: read operations pass priority and status through without
normalization (the row-to-dict conversion copies them verbatim), and
statistics counts every task under exactly the status and priority string it
carries — an unknown value gets its own key rather than being folded into
the default's count; the defaults Not Started and Medium apply only when the
field is missing altogether.  Only the sort keys map unknown values to the
default's rank. -/
theorem unknown_enum_passthrough_spec :
    (∀ r : Row, (rowToTaskDict r).priority = some r.priority
        ∧ (rowToTaskDict r).status = some r.status)
      ∧ (∀ (today : Date) (tasks : List Task) (k : String),
          dictGet ((get_task_statistics today tasks).status_counts) k 0
              = tasks.countP (fun t => t.status.getD "Not Started" == k)
            ∧ dictGet ((get_task_statistics today tasks).priority_counts) k 0
              = tasks.countP (fun t => t.priority.getD "Medium" == k)) := by
  constructor
  · intro r
    exact ⟨rfl, rfl⟩
  · intro today tasks k
    constructor
    · rw [status_counts_eq, foldl_bump_get k _ _ (by decide),
        dictGet_const_zero _ (by decide) k, List.countP_map, Nat.zero_add]
      rfl
    · rw [priority_counts_eq, foldl_bump_get k _ _ (by decide),
        dictGet_const_zero _ (by decide) k, List.countP_map, Nat.zero_add]
      rfl


/-! Tag aggregation, claim C5. -/

/-- The tags a task contributes to the collection loop: the verbatim list,
or the split-and-stripped pieces of a non-empty string value, or nothing. -/
def rawTags (t : Task) : List String :=
  match t.tags with
  | TagsField.absent => []
  | TagsField.null => []
  | TagsField.val (TagsVal.ofList l) => l
  | TagsField.val (TagsVal.ofStr s) => if s = "" then [] else splitTags s

theorem collectStep_eq (acc : List String) (t : Task) :
    collectStep acc t = acc ++ rawTags t := by
  unfold collectStep rawTags
  cases ht : t.tags with
  | absent => simp
  | null => simp
  | val v =>
    cases v with
    | ofList l => rfl
    | ofStr s => by_cases hs : s = "" <;> simp [hs]

theorem mem_foldl_collectStep :
    ∀ (tasks : List Task) (acc : List String) (x : String),
      x ∈ tasks.foldl collectStep acc ↔ x ∈ acc ∨ ∃ t ∈ tasks, x ∈ rawTags t
  | [], acc, x => by simp
  | t :: ts, acc, x => by
    rw [List.foldl_cons, mem_foldl_collectStep ts (collectStep acc t) x, collectStep_eq,
      List.mem_append]
    simp only [List.mem_cons]
    constructor
    · rintro ((h | h) | ⟨u, hu, hx⟩)
      · exact Or.inl h
      · exact Or.inr ⟨t, Or.inl rfl, h⟩
      · exact Or.inr ⟨u, Or.inr hu, hx⟩
    · rintro (h | ⟨u, (rfl | hu), hx⟩)
      · exact Or.inl (Or.inl h)
      · exact Or.inl (Or.inr hx)
      · exact Or.inr ⟨u, hu, hx⟩

theorem head_dropWhile_not (p : Char → Bool) :
    ∀ (l : List Char) (c : Char) (cs : List Char), l.dropWhile p = c :: cs → p c = false
  | [], c, cs => fun h => List.noConfusion h
  | a :: as, c, cs => by
    by_cases hp : p a = true
    · rw [List.dropWhile_cons, if_pos hp]
      exact head_dropWhile_not p as c cs
    · rw [List.dropWhile_cons, if_neg hp]
      intro h
      injection h with h1 _
      subst h1
      simpa using hp

theorem dropTrail_idem (p : Char → Bool) :
    ∀ l : List Char, dropTrail p (dropTrail p l) = dropTrail p l
  | [] => rfl
  | c :: cs => by
    cases hd : dropTrail p cs with
    | nil =>
      by_cases hp : p c = true <;> simp [dropTrail, hd, hp]
    | cons d ds =>
      have ih : dropTrail p (d :: ds) = d :: ds := hd ▸ dropTrail_idem p cs
      have h1 : dropTrail p (c :: cs) = c :: d :: ds := by
        rw [dropTrail, hd]
      rw [h1, dropTrail, ih]

theorem dropTrail_head (p : Char → Bool) :
    ∀ l : List Char, dropTrail p l = [] ∨ (dropTrail p l).head? = l.head?
  | [] => Or.inl rfl
  | c :: cs => by
    cases hd : dropTrail p cs with
    | nil =>
      by_cases hp : p c = true
      · exact Or.inl (by simp [dropTrail, hd, hp])
      · exact Or.inr (by simp [dropTrail, hd, hp])
    | cons d ds => exact Or.inr (by simp [dropTrail, hd])

theorem dropWhile_dropTrail_of (p : Char → Bool) (A : List Char)
    (hA : ∀ c cs, A = c :: cs → p c = false) :
    (dropTrail p A).dropWhile p = dropTrail p A := by
  cases hdt : dropTrail p A with
  | nil => rfl
  | cons d ds =>
    rcases dropTrail_head p A with h | h
    · rw [hdt] at h
      exact List.noConfusion h
    · rw [hdt] at h
      cases hA' : A with
      | nil =>
        rw [hA'] at hdt
        exact List.noConfusion hdt
      | cons c cs =>
        rw [hA'] at h
        have hdc : d = c := by simpa using h
        have hpd : p d = false := by
          rw [hdc]
          exact hA c cs hA'
        simp [List.dropWhile_cons, hpd]

theorem pyStripChars_idem (l : List Char) :
    pyStripChars (pyStripChars l) = pyStripChars l := by
  unfold pyStripChars
  rw [dropWhile_dropTrail_of pyIsSpace (l.dropWhile pyIsSpace)
    (fun c cs h => head_dropWhile_not pyIsSpace l c cs h)]
  rw [dropTrail_idem]

theorem splitTags_strip (s x : String) (h : x ∈ splitTags s) :
    pyStrip x = x ∧ x ≠ "" := by
  unfold splitTags at h
  rcases List.mem_filterMap.mp h with ⟨cs, hcs, hx⟩
  by_cases hce : cs.isEmpty
  · rw [if_pos hce] at hx
    exact absurd hx (by simp)
  · rw [if_neg hce] at hx
    injection hx with hx
    subst hx
    rcases List.mem_map.mp hcs with ⟨piece, _, hstrip⟩
    refine ⟨?_, ?_⟩
    · unfold pyStrip
      rw [show (String.mk cs).data = cs from rfl, ← hstrip, pyStripChars_idem]
    · intro hempty
      have hnil : cs = [] := by
        have := congrArg String.data hempty
        simpa using this
      rw [hnil] at hce
      exact hce rfl


/-- The spec's example task with list-form tags b, a. -/
def listTagTaskA : Task := { tags := TagsField.val (TagsVal.ofList ["b", "a"]) }

/-- The spec's example task with string-form tags a, c. -/
def strTagTask : Task := { tags := TagsField.val (TagsVal.ofStr "a, c") }

/-- A task whose list-form tags hold an empty string and one with leading
whitespace. -/
def rawListTagTask : Task := { tags := TagsField.val (TagsVal.ofList ["", " a"]) }

/-- C5 counterexample: list-form tags are NOT trimmed or purged of empties.
On a task whose tag list is the empty string and a space-a, get_all_tags
returns exactly those two raw strings, so the output contains an empty entry
and an untrimmed entry, contradicting normalization in both storage
forms. -/
theorem all_tags_list_form_cex :
    get_all_tags [rawListTagTask] = ["", " a"]
      ∧ ¬(∀ x ∈ get_all_tags [rawListTagTask], pyStrip x = x ∧ x ≠ "") := by
  constructor
  · decide
  · decide

/-- C5 as amended: get_all_tags collects exactly the tags contributed by
every task — list-form tags verbatim, string-form tags split on commas with
each piece stripped and empty pieces discarded — deduplicates, and returns
them sorted in ascending lexicographic order; the spec's example with tags
b, a in list form and the string a, c yields exactly a, b, c. -/
theorem all_tags_spec :
    (∀ tasks : List Task,
        (∀ x : String, x ∈ get_all_tags tasks ↔ ∃ t ∈ tasks, x ∈ rawTags t)
          ∧ (get_all_tags tasks).Pairwise strLeP
          ∧ (get_all_tags tasks).Nodup)
      ∧ (∀ s x : String, x ∈ splitTags s → pyStrip x = x ∧ x ≠ "")
      ∧ get_all_tags [listTagTaskA, strTagTask] = ["a", "b", "c"] := by
  refine ⟨?_, splitTags_strip, by decide⟩
  intro tasks
  refine ⟨?_, List.sorted_insertionSort strLeP _, ?_⟩
  · intro x
    unfold get_all_tags sortStrings
    rw [(List.perm_insertionSort strLeP _).mem_iff, List.mem_dedup]
    unfold collectTags
    rw [mem_foldl_collectStep tasks [] x]
    simp
  · unfold get_all_tags sortStrings
    exact ((List.perm_insertionSort strLeP _).nodup_iff).mpr (List.nodup_dedup _)


/-! The update path, claims C7 and C10. -/

theorem find?_map_update (store : List (String × Row)) (task_id : String) (f : Row → Row) :
    (store.map (fun kv => if kv.1 == task_id then (kv.1, f kv.2) else kv)).find?
        (fun kv => kv.1 == task_id)
      = (store.find? (fun kv => kv.1 == task_id)).map (fun kv => (kv.1, f kv.2)) := by
  induction store with
  | nil => rfl
  | cons a l ih =>
    by_cases h : (a.1 == task_id) = true
    · simp [List.find?, h]
    · simp only [List.map_cons, h, Bool.false_eq_true, if_false, List.find?]
      exact ih

/-- The row update_task leaves at an existing id: every matching row gets
applyUpdate with the processed due date, tags and completed_at stamp. -/
theorem update_task_found (now : Nat) (store : List (String × Row)) (task_id : String)
    (td : UpdatePayload) (kv : String × Row) (due : Option Date)
    (hfind : store.find? (fun p => p.1 == task_id) = some kv)
    (hdue : processDueDate td.due_date = some due) :
    (update_task now store task_id td).1.find? (fun p => p.1 == task_id)
      = some (kv.1, applyUpdate now kv.2 td due (processTags td.tags)
          (if td.status = some "Completed" then
            (if kv.2.status = "Completed" then none else some now)
          else none)) := by
  unfold update_task
  rw [hdue]
  dsimp only
  rw [find?_map_update store task_id
    (fun r => applyUpdate now r td due (processTags td.tags)
      (completedStamp now store task_id td))]
  rw [hfind]
  unfold completedStamp
  rw [hfind]
  rfl

/-- The store row used by the C7 counterexample: already Completed, with a
completed_at stamp of 5. -/
def row0 : Row := { status := "Completed", completed_at := some 5 }

/-- Payload moving the status away from Completed. -/
def awayPayload : UpdatePayload := { status := some "In Progress" }

/-- Payload moving the status back to Completed. -/
def backPayload : UpdatePayload := { status := some "Completed" }

/-- C7 counterexample: starting from a task already Completed at time 5,
updating its status away to In Progress (at time 7) and then back to
Completed (at time 10) OVERWRITES completed_at with the new stamp 10: the
stamp is set on every non-Completed-to-Completed transition, not only the
first one, so completed_at does not keep its original value. -/
theorem completed_at_overwrite_cex :
    (((update_task 10 (update_task 7 [("t", row0)] "t" awayPayload).1 "t" backPayload).1.find?
          (fun p => p.1 == "t")).map (fun p => p.2.completed_at) = some (some 10))
      ∧ ¬(((update_task 10 (update_task 7 [("t", row0)] "t" awayPayload).1 "t"
            backPayload).1.find?
          (fun p => p.1 == "t")).map (fun p => p.2.completed_at) = some (some 5)) := by
  constructor
  · decide
  · decide

/-- C7 as amended: for an existing task and a payload the database accepts,
update preserves created_at unchanged, and sets completed_at to the current
time on EVERY update whose new status is Completed while the stored status
is not Completed — including a repeat transition after the status moved away
and back, which overwrites the earlier stamp — and leaves completed_at
untouched in every other case. -/
theorem update_created_completed_spec (now : Nat) (store : List (String × Row))
    (task_id : String) (td : UpdatePayload) (kv : String × Row) (due : Option Date)
    (hfind : store.find? (fun p => p.1 == task_id) = some kv)
    (hdue : processDueDate td.due_date = some due) :
    ((update_task now store task_id td).1.find? (fun p => p.1 == task_id)).map
        (fun p => p.2.created_at) = some kv.2.created_at
      ∧ ((update_task now store task_id td).1.find? (fun p => p.1 == task_id)).map
          (fun p => p.2.completed_at)
        = some (if td.status = some "Completed" ∧ kv.2.status ≠ "Completed"
            then some now else kv.2.completed_at) := by
  rw [update_task_found now store task_id td kv due hfind hdue]
  constructor
  · rfl
  · by_cases hst : td.status = some "Completed" <;>
      by_cases hcs : kv.2.status = "Completed" <;>
        simp [applyUpdate, hst, hcs]

/-- The row used by the C7 witness: In Progress, created at time 3. -/
def rowW : Row := { status := "In Progress", created_at := 3 }

/-- Payload that only marks the task Completed. -/
def donePayload : UpdatePayload := { status := some "Completed" }

theorem update_created_completed_witness :
    ((update_task 10 [("t", rowW)] "t" donePayload).1.find? (fun p => p.1 == "t")).map
        (fun p => p.2.created_at) = some rowW.created_at
      ∧ ((update_task 10 [("t", rowW)] "t" donePayload).1.find? (fun p => p.1 == "t")).map
          (fun p => p.2.completed_at)
        = some (if donePayload.status = some "Completed" ∧ rowW.status ≠ "Completed"
            then some 10 else rowW.completed_at) :=
  update_created_completed_spec 10 [("t", rowW)] "t" donePayload ("t", rowW) none rfl rfl


/-- C10: the None filter of update_task line 259 makes an update drop every
scalar field supplied as None or omitted — the stored value survives and can
never be overwritten with null; a due_date that fails to parse is likewise
dropped.  The exception is tags: a payload WITHOUT a tags key defaults to
the empty list, which survives the None filter and overwrites the stored tag
set with [], while an explicit null tags value is dropped like the
scalars. -/
theorem update_none_drop_spec (now : Nat) (store : List (String × Row))
    (task_id : String) (td : UpdatePayload) (kv : String × Row) (due : Option Date)
    (hfind : store.find? (fun p => p.1 == task_id) = some kv)
    (hdue : processDueDate td.due_date = some due) :
    (td.title = none → ((update_task now store task_id td).1.find?
        (fun p => p.1 == task_id)).map (fun p => p.2.title) = some kv.2.title)
      ∧ (td.description = none → ((update_task now store task_id td).1.find?
          (fun p => p.1 == task_id)).map (fun p => p.2.description) = some kv.2.description)
      ∧ (td.priority = none → ((update_task now store task_id td).1.find?
          (fun p => p.1 == task_id)).map (fun p => p.2.priority) = some kv.2.priority)
      ∧ (td.status = none → ((update_task now store task_id td).1.find?
          (fun p => p.1 == task_id)).map (fun p => p.2.status) = some kv.2.status)
      ∧ (td.due_date = none → ((update_task now store task_id td).1.find?
          (fun p => p.1 == task_id)).map (fun p => p.2.due_date) = some kv.2.due_date)
      ∧ (∀ s, td.due_date = some s → parseDate s = none →
          ((update_task now store task_id td).1.find?
            (fun p => p.1 == task_id)).map (fun p => p.2.due_date) = some kv.2.due_date)
      ∧ (td.assigned_to = none → ((update_task now store task_id td).1.find?
          (fun p => p.1 == task_id)).map (fun p => p.2.assigned_to) = some kv.2.assigned_to)
      ∧ (td.recurring = none → ((update_task now store task_id td).1.find?
          (fun p => p.1 == task_id)).map (fun p => p.2.recurring) = some kv.2.recurring)
      ∧ (td.recurring_pattern = none → ((update_task now store task_id td).1.find?
          (fun p => p.1 == task_id)).map (fun p => p.2.recurring_pattern)
            = some kv.2.recurring_pattern)
      ∧ (td.metadata = none → ((update_task now store task_id td).1.find?
          (fun p => p.1 == task_id)).map (fun p => p.2.metadata) = some kv.2.metadata)
      ∧ (td.tags = TagsField.null → ((update_task now store task_id td).1.find?
          (fun p => p.1 == task_id)).map (fun p => p.2.tags) = some kv.2.tags)
      ∧ (td.tags = TagsField.absent → ((update_task now store task_id td).1.find?
          (fun p => p.1 == task_id)).map (fun p => p.2.tags) = some ([] : List String)) := by
  rw [update_task_found now store task_id td kv due hfind hdue]
  refine ⟨fun h => by simp [applyUpdate, h], fun h => by simp [applyUpdate, h],
    fun h => by simp [applyUpdate, h], fun h => by simp [applyUpdate, h],
    ?_, ?_,
    fun h => by simp [applyUpdate, h], fun h => by simp [applyUpdate, h],
    fun h => by simp [applyUpdate, h], fun h => by simp [applyUpdate, h],
    fun h => by simp [applyUpdate, processTags, h],
    fun h => by simp [applyUpdate, processTags, h]⟩
  · intro h
    rw [h] at hdue
    have hd : due = none := by
      simpa [processDueDate] using hdue.symm
    simp [applyUpdate, hd]
  · intro s hs hp
    rw [hs] at hdue
    have hdue' : (if s = "" then none else some (parseDate s)) = some due := hdue
    by_cases hse : s = ""
    · rw [if_pos hse] at hdue'
      exact Option.noConfusion hdue'
    · rw [if_neg hse, hp] at hdue'
      have hd : due = none := by simpa using hdue'.symm
      simp [applyUpdate, hd]

/-- A fully populated row, for the C10 witness. -/
def rowC : Row :=
  { title := "x", description := "y", priority := "High", status := "In Progress",
    due_date := some ⟨2025, 1, 2⟩, tags := ["k"], assigned_to := some "a",
    created_at := 3, updated_at := 4, completed_at := some 4, recurring := true,
    recurring_pattern := some "Daily", metadata := some [("k", "v")] }

/-- The payload with every key absent. -/
def emptyPayload : UpdatePayload := {}

theorem update_none_drop_witness :
    ((update_task 10 [("t", rowC)] "t" emptyPayload).1.find?
        (fun p => p.1 == "t")).map (fun p => p.2.title) = some rowC.title
      ∧ ((update_task 10 [("t", rowC)] "t" emptyPayload).1.find?
          (fun p => p.1 == "t")).map (fun p => p.2.tags) = some ([] : List String) :=
  ⟨(update_none_drop_spec 10 [("t", rowC)] "t" emptyPayload ("t", rowC) none rfl rfl).1 rfl,
    (update_none_drop_spec 10 [("t", rowC)] "t" emptyPayload ("t", rowC) none rfl
      rfl).2.2.2.2.2.2.2.2.2.2.2 rfl⟩


/-! Tolerance of malformed per-field data, claim C9. -/

theorem specOverdue_of_unparseable (today : Date) (t : Task) (h : parsedDue t = none) :
    specOverdue today t = false := by
  unfold specOverdue
  rw [h]
  exact Bool.and_false _

theorem specDueSoon_of_unparseable (today : Date) (t : Task) (h : parsedDue t = none) :
    specDueSoon today t = false := by
  unfold specDueSoon
  rw [h]
  exact Bool.and_false _

/-- C9: the query engine tolerates malformed per-field data.  A task whose
due_date is missing or unparseable contributes to neither overdue_count nor
due_soon_count (prepending such a task changes neither count), its sort key
is demoted to the undated maximum instead of raising, string-form tags are
split and stripped rather than rejected, and filtering by a tag no task
carries returns the empty collection rather than an error. -/
theorem malformed_tolerance_spec :
    (∀ (today : Date) (t : Task), parsedDue t = none →
        specOverdue today t = false ∧ specDueSoon today t = false)
      ∧ (∀ (today : Date) (tasks : List Task) (t : Task), parsedDue t = none →
          (get_task_statistics today (t :: tasks)).overdue_count
              = (get_task_statistics today tasks).overdue_count
            ∧ (get_task_statistics today (t :: tasks)).due_soon_count
              = (get_task_statistics today tasks).due_soon_count)
      ∧ (∀ t : Task, parsedDue t = none → dueKey t = encodeDate dateMax)
      ∧ (∀ (s : String) (t : Task), t.tags = TagsField.val (TagsVal.ofStr s) →
          taskTags t = splitTags s)
      ∧ (∀ (tag sort_by : String) (tasks : List (String × Task)),
          tag ≠ "" → (∀ kv ∈ tasks, tag ∉ taskTags kv.2) →
          get_filtered_tasks "" (some tag) sort_by tasks = []) := by
  refine ⟨fun today t h => ⟨specOverdue_of_unparseable today t h,
      specDueSoon_of_unparseable today t h⟩, ?_, ?_, ?_, ?_⟩
  · intro today tasks t h
    constructor
    · show (List.foldl (dueLoop today) (0, 0) (t :: tasks)).1
        = (List.foldl (dueLoop today) (0, 0) tasks).1
      rw [foldl_dueLoop, foldl_dueLoop]
      simp [List.countP_cons, specOverdue_of_unparseable today t h]
    · show (List.foldl (dueLoop today) (0, 0) (t :: tasks)).2
        = (List.foldl (dueLoop today) (0, 0) tasks).2
      rw [foldl_dueLoop, foldl_dueLoop]
      simp [List.countP_cons, specDueSoon_of_unparseable today t h]
  · intro t h
    exact dueKey_undated t (by simp [isDatedB, h])
  · intro s t h
    simp [taskTags, h]
  · intro tag sort_by tasks htag hnone
    unfold get_filtered_tasks
    have hfil : tasks.filter
        (fun kv => matchesSearch "" kv.2 && matchesTag (some tag) kv.2) = [] := by
      rw [List.filter_eq_nil_iff]
      intro kv hkv
      have hm : matchesTag (some tag) kv.2 = false := by
        have hm' : matchesTag (some tag) kv.2
            = if tag = "" then true else (taskTags kv.2).contains tag := rfl
        rw [hm', if_neg htag]
        simpa [List.elem_iff] using hnone kv hkv
      simp [hm]
    rw [hfil]
    unfold sortTasks
    split_ifs <;> rfl

end DataHandler
